import Mathlib

/-!
Verification of the transaction pattern intelligence engine of a budgeting
application backend (source files backend/main.py and backend/ai_insights.py),
shallowly embedded in Lean 4.

Modelling conventions:
* Python floats and Decimals are modelled as rationals.  Comparisons of the
  form std < c (with std a numpy or statistics standard deviation, c > 0) are
  embedded as variance < c^2, which is equivalent and keeps everything inside ℚ.
* Calendar dates carry no time of day in the source, so a date is a day
  number (ℤ); subtracting two dates yields the day gap, exactly as
  (d1 - d2).days does in the source.
* Python str is modelled on its ASCII fragment: lower, strip, title and the
  regex classes \w and \s are embedded for ASCII characters, which covers
  every merchant-name constant the source and its tests use.
* Where the source calls a statistical library routine that is a pure
  deterministic function of its input (IsolationForest with a fixed
  random_state, StandardScaler), the routine is a function parameter of the
  embedding; every theorem quantifies over it.
-/

namespace BudgetApp

/- The Batteries rational arithmetic definitions are irreducible by default,
which blocks kernel evaluation of concrete witnesses; restore the ordinary
reducibility for this development so that concrete runs of the embedded
detectors can be checked by decide. -/
attribute [local semireducible] Rat.mul Rat.add Rat.sub Rat.inv

/-! ## Rational list statistics -/

/-- Mean of a list of rationals, as statistics.mean / np.mean / pandas mean
compute it (0 for the empty list under the ℚ convention 0 / 0 = 0). -/
def qMean (l : List ℚ) : ℚ := l.sum / l.length

/-- Sample variance (denominator n - 1), as statistics.variance and
pandas .std(ddof = 1) squared compute it; meaningful for lists of length
at least 2 (every call site in the source guards the length). -/
def sampleVariance (l : List ℚ) : ℚ :=
  ((l.map (fun x => (x - qMean l) ^ 2)).sum) / ((l.length : ℚ) - 1)

/-- Population variance (denominator n), the square of np.std with the
default ddof = 0. -/
def popVariance (l : List ℚ) : ℚ :=
  ((l.map (fun x => (x - qMean l) ^ 2)).sum) / (l.length : ℚ)

/-- Consecutive differences of a list: the day gaps the source computes as
(sorted_dates[i] - sorted_dates[i-1]).days for i = 1..n-1. -/
def gaps : List ℤ → List ℤ
  | a :: b :: rest => (b - a) :: gaps (b :: rest)
  | _ => []

/-- Fold maximum of an integer list (0 for the empty list; call sites are
guarded to nonempty lists), as max(dates). -/
def listMaxZ : List ℤ → ℤ
  | [] => 0
  | x :: xs => xs.foldl max x

/-- Fold minimum of an integer list, as min(dates). -/
def listMinZ : List ℤ → ℤ
  | [] => 0
  | x :: xs => xs.foldl min x

/-- Python round to the nearest integer, half to even (bankers rounding),
on rationals. -/
def roundHalfEven (q : ℚ) : ℤ :=
  if q - ⌊q⌋ < 1 / 2 then ⌊q⌋
  else if 1 / 2 < q - ⌊q⌋ then ⌊q⌋ + 1
  else if ⌊q⌋ % 2 = 0 then ⌊q⌋ else ⌊q⌋ + 1

/-- Python round(x, 2) on rationals: round 100 x half to even, divide by 100. -/
def round2q (q : ℚ) : ℚ := (roundHalfEven (100 * q) : ℚ) / 100

/-- Insert an element into a list, before the first element y with le x y;
helper of the stable sort below. -/
def insertS {α : Type} (le : α → α → Bool) (x : α) : List α → List α
  | [] => [x]
  | y :: ys => if le x y then x :: y :: ys else y :: insertS le x ys

/-- Stable insertion sort; a faithful model of Python sorted / list.sort,
which are stable.  An element earlier in the input stays before an element
comparing equal to it. -/
def insortBy {α : Type} (le : α → α → Bool) : List α → List α
  | [] => []
  | x :: xs => insertS le x (insortBy le xs)

/-! ## ASCII character model of the Python string operations used -/

/-- The whitespace class \s of the Python re module, ASCII fragment. -/
def isPySpace (c : Char) : Bool :=
  c = ' ' || c = '\t' || c = '\n' || c = '\r' || c = '\x0b' || c = '\x0c'

/-- The word class \w of the Python re module, ASCII fragment. -/
def isWordChar (c : Char) : Bool := c.isAlphanum || c = '_'

/-- str.lower on an ASCII character. -/
def asciiLower (c : Char) : Char :=
  if 'A' ≤ c ∧ c ≤ 'Z' then Char.ofNat (c.toNat + 32) else c

/-- str.upper on an ASCII character. -/
def asciiUpper (c : Char) : Char :=
  if 'a' ≤ c ∧ c ≤ 'z' then Char.ofNat (c.toNat - 32) else c

/-- str.strip: drop leading and trailing whitespace. -/
def pyStrip (l : List Char) : List Char :=
  ((l.dropWhile isPySpace).reverse.dropWhile isPySpace).reverse

/-- merchant.lower().strip(), the merchant part of the exact grouping keys. -/
def pyLowerStrip (s : String) : String :=
  String.mk (pyStrip (s.data.map asciiLower))

/-- Helper of pyTitle: the Bool records whether the previous character was
a letter (cased). -/
def pyTitleGo : Bool → List Char → List Char
  | _, [] => []
  | prevCased, c :: cs =>
    if c.isAlpha then
      (if prevCased then asciiLower c else asciiUpper c) :: pyTitleGo true cs
    else c :: pyTitleGo false cs

/-- str.title (ASCII): uppercase every letter that follows a non-letter,
lowercase the other letters. -/
def pyTitleStr (s : String) : String := String.mk (pyTitleGo false s.data)

/-! ## Merchant Normalizer (normalize_merchant_name, backend/main.py)

The source normalizes a merchant name by
  re.sub(r'\s+(inc|corp|llc|ltd|company|co|payroll|ppd|id|payment|pay)\b', '', name.lower())
then stripping every character outside \w and \s, then collapsing whitespace
runs to single spaces and stripping the ends. -/

/-- The suffix vocabulary, in the order of the regex alternation (the regex
engine tries alternatives left to right). -/
def suffixToks : List (List Char) :=
  ["inc".toList, "corp".toList, "llc".toList, "ltd".toList, "company".toList,
   "co".toList, "payroll".toList, "ppd".toList, "id".toList, "payment".toList,
   "pay".toList]

/-- If tok is a leading segment of l, the remainder of l after it. -/
def matchTok : List Char → List Char → Option (List Char)
  | [], l => some l
  | _, [] => none
  | t :: ts, c :: cs => if t = c then matchTok ts cs else none

/-- The word-boundary condition \b after the matched token: the next
character is a non-word character or the string ends. -/
def boundaryOk : List Char → Bool
  | [] => true
  | c :: _ => !isWordChar c

/-- Try the alternation on l: the first token that is a leading segment of l
and is followed by a word boundary wins, exactly as the regex engine tries
the alternatives at a fixed position. -/
def firstTok : List (List Char) → List Char → Option (List Char)
  | [], _ => none
  | tok :: rest, l =>
    match matchTok tok l with
    | some r => if boundaryOk r then some r else firstTok rest l
    | none => firstTok rest l

/-- One re.sub pass for the suffix pattern: scanning left to right, at each
position that starts a whitespace run try (maximal whitespace)(token)\b; on
a match drop it and resume after the token, otherwise emit one character.
The greedy \s+ cannot backtrack usefully here because no token starts with
whitespace, so taking the maximal run is faithful.  Fuel is the input
length, which bounds the number of emitted characters. -/
def subSuffixPass : ℕ → List Char → List Char
  | 0, l => l
  | _ + 1, [] => []
  | fuel + 1, c :: cs =>
    if isPySpace c then
      match firstTok suffixToks ((c :: cs).dropWhile isPySpace) with
      | some r => subSuffixPass fuel r
      | none => c :: subSuffixPass fuel cs
    else c :: subSuffixPass fuel cs

/-- re.sub(r'\s+', ' ', s): collapse every whitespace run to one space. -/
def collapseWs : ℕ → List Char → List Char
  | 0, l => l
  | _ + 1, [] => []
  | fuel + 1, c :: cs =>
    if isPySpace c then ' ' :: collapseWs fuel (cs.dropWhile isPySpace)
    else c :: collapseWs fuel cs

/-- The three normalization passes on a character list. -/
def normChars (l : List Char) : List Char :=
  let low := l.map asciiLower
  let s1 := subSuffixPass low.length low
  let s2 := s1.filter (fun c => isWordChar c || isPySpace c)
  pyStrip (collapseWs s2.length s2)

/-- normalize_merchant_name (backend/main.py): empty input normalizes to the
literal token unknown, otherwise the three passes above. -/
def normalize_merchant_name (s : String) : String :=
  if s.isEmpty then "unknown" else String.mk (normChars s.data)

example : normalize_merchant_name "Acme Inc" = "acme" := by decide
example : normalize_merchant_name "acme -inc" = "acme inc" := by decide
example : normalize_merchant_name "acme inc" = "acme" := by decide

/-! ## Similarity ratio (difflib.SequenceMatcher, used by are_similar_sources)

The source scores name similarity with
SequenceMatcher(None, norm1, norm2).ratio().  The model below reproduces the
difflib algorithm: ratio = 2 M / T where T is the total length and M is the
total size of the matching blocks found by recursively splitting around the
longest matching block, with the b2j index, the autojunk heuristic for
second sequences of length at least 200, and the four junk-aware extension
loops of find_longest_match. -/

/-- The autojunk predicate of difflib: for a second sequence of length at
least 200, an element occurring more than n / 100 + 1 times is junk. -/
def bjunkSet (b : List Char) : Char → Bool :=
  if b.length < 200 then fun _ => false
  else fun c => b.length / 100 + 1 < b.count c

/-- The b2j index: positions of c in b (ascending), empty for junk c. -/
def charPositions (b : List Char) (junk : Char → Bool) (c : Char) : List ℕ :=
  if junk c then [] else (List.range b.length).filter (fun j => b.get? j = some c)

/-- Inner loop of find_longest_match over the b2j positions of a[i]:
threads the diagonal-length map j2len of the previous row, builds the map of
this row, and improves the best block on a strictly longer run, which keeps
the earliest i and then the earliest j on ties exactly as difflib does. -/
def flmRowGo (j2len : ℕ → ℕ) (i blo bhi : ℕ) :
    List ℕ → (ℕ → ℕ) → ℕ × ℕ × ℕ → (ℕ → ℕ) × (ℕ × ℕ × ℕ)
  | [], acc, best => (acc, best)
  | j :: js, acc, best =>
    if j < blo then flmRowGo j2len i blo bhi js acc best
    else if bhi ≤ j then (acc, best)
    else
      let k := (if j = 0 then 0 else j2len (j - 1)) + 1
      let acc2 := fun x => if x = j then k else acc x
      let best2 := if best.2.2 < k then (i + 1 - k, j + 1 - k, k) else best
      flmRowGo j2len i blo bhi js acc2 best2

/-- Outer loop of find_longest_match over the rows i = alo .. ahi - 1. -/
def flmRows (a b : List Char) (junk : Char → Bool) (blo bhi : ℕ) :
    List ℕ → (ℕ → ℕ) → ℕ × ℕ × ℕ → ℕ × ℕ × ℕ
  | [], _, best => best
  | i :: is, j2len, best =>
    let js := match a.get? i with
      | some ch => charPositions b junk ch
      | none => []
    let step := flmRowGo j2len i blo bhi js (fun _ => 0) best
    flmRows a b junk blo bhi is step.1 step.2

/-- One of the four extension loops of find_longest_match, extending the
best block downward while the adjacent b element has the wanted junk status
and the adjacent elements agree. -/
def extLow (a b : List Char) (junk : Char → Bool) (want : Bool) (alo blo : ℕ) :
    ℕ → ℕ × ℕ × ℕ → ℕ × ℕ × ℕ
  | 0, st => st
  | fuel + 1, (bi, bj, bs) =>
    let go : Bool :=
      decide (alo < bi) && decide (blo < bj) &&
        (match b.get? (bj - 1), a.get? (bi - 1) with
         | some cb, some ca => (junk cb == want) && (ca == cb)
         | _, _ => false)
    if go then extLow a b junk want alo blo fuel (bi - 1, bj - 1, bs + 1)
    else (bi, bj, bs)

/-- The upward counterpart of extLow. -/
def extHigh (a b : List Char) (junk : Char → Bool) (want : Bool) (ahi bhi : ℕ) :
    ℕ → ℕ × ℕ × ℕ → ℕ × ℕ × ℕ
  | 0, st => st
  | fuel + 1, (bi, bj, bs) =>
    let go : Bool :=
      decide (bi + bs < ahi) && decide (bj + bs < bhi) &&
        (match b.get? (bj + bs), a.get? (bi + bs) with
         | some cb, some ca => (junk cb == want) && (ca == cb)
         | _, _ => false)
    if go then extHigh a b junk want ahi bhi fuel (bi, bj, bs + 1)
    else (bi, bj, bs)

/-- find_longest_match on the ranges a[alo:ahi], b[blo:bhi]: the dynamic
program over rows followed by the four extension loops (non-junk then junk,
downward then upward). -/
def findLongestMatch (a b : List Char) (junk : Char → Bool)
    (alo ahi blo bhi : ℕ) : ℕ × ℕ × ℕ :=
  let best0 := flmRows a b junk blo bhi (List.range' alo (ahi - alo))
    (fun _ => 0) (alo, blo, 0)
  let b1 := extLow a b junk false alo blo a.length best0
  let b2 := extHigh a b junk false ahi bhi (a.length + b.length) b1
  let b3 := extLow a b junk true alo blo a.length b2
  extHigh a b junk true ahi bhi (a.length + b.length) b3

/-- Total size of the matching blocks of get_matching_blocks: recursively
split around the longest match.  The fuel (total range size at the top
call) bounds the recursion depth, since every split strictly shrinks the
ranges. -/
def matchTotal (a b : List Char) (junk : Char → Bool) :
    ℕ → ℕ → ℕ → ℕ → ℕ → ℕ
  | 0, _, _, _, _ => 0
  | fuel + 1, alo, ahi, blo, bhi =>
    let m := findLongestMatch a b junk alo ahi blo bhi
    if m.2.2 = 0 then 0
    else
      matchTotal a b junk fuel alo m.1 blo m.2.1 + m.2.2 +
        matchTotal a b junk fuel (m.1 + m.2.2) ahi (m.2.1 + m.2.2) bhi

/-- SequenceMatcher(None, a, b).ratio(): 2 M / T, and 1.0 when both
sequences are empty. -/
def seqRatio (a b : String) : ℚ :=
  let la := a.data
  let lb := b.data
  let junk := bjunkSet lb
  let m := matchTotal la lb junk (la.length + lb.length + 1) 0 la.length 0 lb.length
  let t := la.length + lb.length
  if t = 0 then 1 else (2 * m : ℚ) / t

example : seqRatio "acme" "acme" = 1 := by decide
example : seqRatio "abcd" "bcde" = 3 / 4 := by decide

/-- are_similar_sources (backend/main.py, inner helper of the first,
fuzzy-cluster _analyze_income_patterns): two sources are similar when the
normalized names have similarity ratio at least 0.8, or at least 0.6 with
the amounts within the tolerance (relative difference at most tolerance,
taken as 0 when both amounts are at most 0). -/
def are_similar_sources (name1 name2 : String) (amount1 amount2 : ℚ)
    (tolerance : ℚ) : Bool :=
  let norm1 := normalize_merchant_name name1
  let norm2 := normalize_merchant_name name2
  let sim := seqRatio norm1 norm2
  let mx := max amount1 amount2
  let amountDiff := if 0 < mx then |amount1 - amount2| / mx else 0
  decide (8 / 10 ≤ sim) ||
    (decide (6 / 10 ≤ sim) && decide (amountDiff ≤ tolerance))

/-! ## Data model

The Transaction fields used by the engine (data/data_models.py): price is the
signed amount (positive = expense, negative = income, the Plaid convention),
date is the calendar date as a day number, account_id the owning bank
account.  Categories are not modelled because the only component reading
them (the anomaly feature builder) is abstracted as a function parameter. -/

structure Transaction where
  price : ℚ
  merchant_name : String
  date : ℤ
  account_id : ℕ
deriving DecidableEq

/-- The user-facing Insight record; the message field of the source is a
formatted string and is not modelled, the remaining fields are. -/
structure Insight where
  title : String
  insight_type : String
  confidence_score : ℚ
deriving DecidableEq

/-! ## Income Stream Detector actually invoked by the endpoints
(second _analyze_income_patterns, backend/main.py lines 875-970)

backend/main.py defines _analyze_income_patterns twice at module level; the
second definition rebinds the name, so both /plaid/income and
/income/analysis call this one.  It groups transactions by the exact key
(merchant_name.lower().strip(), round(abs(price)), account_id) after
discarding deposits with absolute amount below 50. -/

/-- The grouping key of the invoked income detector. -/
def incomeKey (t : Transaction) : String × ℤ × ℕ :=
  (pyLowerStrip t.merchant_name, roundHalfEven |t.price|, t.account_id)

/-- Append a value to the bucket of key k, creating the bucket at the end on
a fresh key: the insertion-order behaviour of a Python defaultdict(list). -/
def addToGroups {κ β : Type} [DecidableEq κ] (gs : List (κ × List β))
    (k : κ) (x : β) : List (κ × List β) :=
  match gs with
  | [] => [(k, [x])]
  | (k2, l) :: rest =>
    if k2 = k then (k2, l ++ [x]) :: rest else (k2, l) :: addToGroups rest k x

/-- income_groups: the defaultdict built by the invoked detector, in
insertion order, after the abs(price) < 50 filter. -/
def incomeGroups (ts : List Transaction) : List ((String × ℤ × ℕ) × List Transaction) :=
  ts.foldl
    (fun gs t => if |t.price| < 50 then gs else addToGroups gs (incomeKey t) t) []

/-- The stream record returned by the invoked detector. -/
structure IncomeStream where
  account_id : ℕ
  account_name : String
  name : String
  monthly_income : ℚ
  confidence : ℚ
  days_available : ℤ
  frequency : String
deriving DecidableEq

/-- Per-group analysis of the invoked detector: groups of fewer than 2
occurrences are dropped; the dates are sorted; the mean day gap selects a
frequency and base confidence; amounts of at least 1000 get a +0.2
confidence boost capped at 1; the stream is emitted when confidence is at
least 0.5 and the monthly-equivalent income at least 200. -/
def processIncomeGroup (accounts : List (ℕ × String))
    (k : String × ℤ × ℕ) (l : List Transaction) : Option IncomeStream :=
  if l.length < 2 then none else
  let sorted := insortBy (fun t1 t2 => decide (t1.date ≤ t2.date)) l
  let intervals := (gaps (sorted.map (·.date))).map (fun (z : ℤ) => (z : ℚ))
  if intervals = [] then none else
  let avg := qMean intervals
  let amount : ℚ := (k.2.1 : ℚ)
  let fc : String × ℚ :=
    if avg ≤ 35 then
      if 25 ≤ avg ∧ avg ≤ 35 then ("monthly", 4 / 5)
      else if 12 ≤ avg ∧ avg ≤ 16 then ("bi-weekly", 9 / 10)
      else if 6 ≤ avg ∧ avg ≤ 8 then ("weekly", 7 / 10)
      else ("irregular", 0)
    else if avg ≤ 95 then ("quarterly", 3 / 5)
    else ("irregular", 0)
  let conf := if 1000 ≤ amount then min (fc.2 + 1 / 5) 1 else fc.2
  let monthlyIncome : ℚ :=
    if fc.1 = "weekly" then amount * (433 / 100)
    else if fc.1 = "bi-weekly" then amount * (217 / 100)
    else if fc.1 = "monthly" then amount
    else if fc.1 = "quarterly" then amount / 3
    else if 0 < avg then amount * (30 / avg) else 0
  if 1 / 2 ≤ conf ∧ 200 ≤ monthlyIncome then
    some { account_id := k.2.2
         , account_name := (accounts.lookup k.2.2).getD "Unknown Account"
         , name := if k.1 ≠ "unknown" then pyTitleStr k.1 else "Regular Deposit"
         , monthly_income := round2q monthlyIncome
         , confidence := round2q conf
         , days_available := listMaxZ (sorted.map (·.date)) - listMinZ (sorted.map (·.date))
         , frequency := fc.1 }
  else none

/-- The invoked detector end to end: group, analyse each group, sort the
streams by monthly income descending (Python stable sort, reverse=True). -/
def analyzeIncomePatterns (accounts : List (ℕ × String))
    (ts : List Transaction) : List IncomeStream :=
  insortBy (fun s1 s2 => decide (s2.monthly_income ≤ s1.monthly_income))
    ((incomeGroups ts).filterMap (fun g => processIncomeGroup accounts g.1 g.2))

/-! ## Primary (shadowed) Income Stream Detector
(first _analyze_income_patterns, backend/main.py lines 614-760)

This is the fuzzy-cluster detector the spec designates as the canonical
algorithm; at runtime it is shadowed by the later definition above.  The
per-series statistics embedded here are lines 702-755: amount-consistency
filter, sorted date gaps, frequency ladder, and the confidence formula
confidence = interval_consistency * sample_confidence * 0.8 with the
final > 0.3 emission filter. -/

/-- interval_consistency (line 741): 1 - variance(intervals)/mean^2 when
there is more than one interval (statistics.variance is the sample
variance), else 1.  The source does not clamp the value at 0. -/
def intervalConsistency (intervals : List ℚ) : ℚ :=
  if 1 < intervals.length then
    1 - sampleVariance intervals / (qMean intervals) ^ 2
  else 1

/-- sample_confidence (line 742): min(occurrence_count / 5, 1). -/
def sampleConfidence (n : ℕ) : ℚ := min ((n : ℚ) / 5) 1

/-- confidence (line 743): interval_consistency * sample_confidence * 0.8.
The 0.8 is a multiplicative factor in the source, not a cap. -/
def primaryConfidence (intervals : List ℚ) (n : ℕ) : ℚ :=
  intervalConsistency intervals * sampleConfidence n * (4 / 5)

/-- The income-side confidence as the specification words it: the product
of the clamped interval consistency and the sample confidence, capped at
the hard ceiling 0.8.  Modelled from the spec for comparison with the
source formula primaryConfidence. -/
def specIncomeConfidence (intervals : List ℚ) (n : ℕ) : ℚ :=
  min (max (1 - sampleVariance intervals / (qMean intervals) ^ 2) 0
        * sampleConfidence n)
    (4 / 5)

/-- The day gaps of a date series after sorting it ascending, as rationals:
the intervals list every detector computes from its sorted dates. -/
def dayGapsQ (dates : List ℤ) : List ℚ :=
  (gaps (insortBy (fun a b => decide (a ≤ b)) dates)).map (fun (z : ℤ) => (z : ℚ))

/-- The day gaps of a merchant group after sorting its dates ascending. -/
def primaryIntervals (g : List Transaction) : List ℚ :=
  dayGapsQ (g.map (·.date))

/-- A stream record of the primary detector (the constant account_id and
account_name fields of the source record are omitted). -/
structure PrimaryStream where
  name : String
  monthly_income : ℚ
  confidence : ℚ
  days_available : ℤ
  frequency : String
deriving DecidableEq

/-- The frequency label and monthly-equivalent income of the primary
detector (lines 726-738): weekly below mean gap 10, monthly up to 40,
bi-monthly up to 100, else irregular extrapolated by 30/mean. -/
def primaryFreqIncome (g : List Transaction) : String × ℚ :=
  let avgAmount := qMean (g.map (fun t => |t.price|))
  let avg := qMean (primaryIntervals g)
  if avg ≤ 10 then ("Weekly", avgAmount * (433 / 100))
  else if avg ≤ 40 then ("Monthly", avgAmount)
  else if avg ≤ 100 then ("Bi-monthly", avgAmount * (1 / 2))
  else ("Irregular", avgAmount * (30 / avg))

/-- Per-group processing of the primary detector (lines 702-755): at least
2 transactions; skip when the sample variance of the absolute amounts
exceeds (0.2 * mean amount)^2; at least 2 dates; emit the stream record
when the confidence exceeds 0.3, with confidence and monthly income rounded
to 2 decimals. -/
def primaryProcessGroup (name : String) (g : List Transaction) : Option PrimaryStream :=
  if g.length < 2 then none
  else if (qMean (g.map (fun t => |t.price|)) * (1 / 5)) ^ 2 <
      (if 1 < g.length then sampleVariance (g.map (fun t => |t.price|)) else 0) then none
  else if (g.map (·.date)).length ≤ 1 then none
  else if 3 / 10 < primaryConfidence (primaryIntervals g) g.length then
    some { name := name
         , monthly_income := round2q (primaryFreqIncome g).2
         , confidence := round2q (primaryConfidence (primaryIntervals g) g.length)
         , days_available := listMaxZ (g.map (·.date)) - listMinZ (g.map (·.date)) + 1
         , frequency := (primaryFreqIncome g).1 }
  else none

/-! ## Interval Classifier and Recurring Charge Detector
(_detect_subscriptions, backend/ai_insights.py lines 145-207, and the same
rules in get_subscription_analysis, backend/main.py lines 1026-1058)

Series are grouped by (merchant_name.lower().strip(), price) over the
expense-side transactions (price > 0); a series with at least 2 dates gets
its sorted day gaps classified by np.mean and np.std (population standard
deviation, ddof = 0); std < c is embedded as population variance < c^2. -/

inductive SubFreq
  | monthly
  | weekly
  | annual
deriving DecidableEq

inductive SeriesKind
  | grayCharge
  | subscription
deriving DecidableEq

/-- The expense-side Interval Classifier: monthly when the mean gap is in
[25, 35] with np.std below 5, weekly when in [6, 8] with np.std below 2,
annual when in [350, 380] with np.std below 15, else the series is dropped
(irregular).  none also covers series with fewer than 2 dates. -/
def classifyFrequency (dates : List ℤ) : Option SubFreq :=
  if dayGapsQ dates = [] then none
  else if 25 ≤ qMean (dayGapsQ dates) ∧ qMean (dayGapsQ dates) ≤ 35
      ∧ popVariance (dayGapsQ dates) < 25 then some SubFreq.monthly
  else if 6 ≤ qMean (dayGapsQ dates) ∧ qMean (dayGapsQ dates) ≤ 8
      ∧ popVariance (dayGapsQ dates) < 4 then some SubFreq.weekly
  else if 350 ≤ qMean (dayGapsQ dates) ∧ qMean (dayGapsQ dates) ≤ 380
      ∧ popVariance (dayGapsQ dates) < 225 then some SubFreq.annual
  else none

/-- The Interval Classifier as the specification words it, with the sample
standard deviation of the day gaps in place of np.std.  Modelled from the
spec for comparison with classifyFrequency. -/
def specClassifyFrequency (dates : List ℤ) : Option SubFreq :=
  if dayGapsQ dates = [] then none
  else if 25 ≤ qMean (dayGapsQ dates) ∧ qMean (dayGapsQ dates) ≤ 35
      ∧ sampleVariance (dayGapsQ dates) < 25 then some SubFreq.monthly
  else if 6 ≤ qMean (dayGapsQ dates) ∧ qMean (dayGapsQ dates) ≤ 8
      ∧ sampleVariance (dayGapsQ dates) < 4 then some SubFreq.weekly
  else if 350 ≤ qMean (dayGapsQ dates) ∧ qMean (dayGapsQ dates) ≤ 380
      ∧ sampleVariance (dayGapsQ dates) < 225 then some SubFreq.annual
  else none

/-- The Recurring Charge Detector on one grouped series: a recognized
frequency is required; the series is a gray charge iff amount < 20 and the
occurrence count is at least 3, else a subscription (ai_insights.py lines
188-207, main.py lines 1043-1058). -/
def classifySeries (amount : ℚ) (dates : List ℤ) : Option (SubFreq × SeriesKind) :=
  match classifyFrequency dates with
  | none => none
  | some f =>
    some (f, if amount < 20 ∧ 3 ≤ dates.length then SeriesKind.grayCharge
             else SeriesKind.subscription)

/-! ## Anomaly Scorer (_detect_anomalies, backend/ai_insights.py lines 79-143)

The IsolationForest / StandardScaler pipeline is a deterministic function of
its input for a fixed random_state; it is abstracted as a predicate
pred ts idx saying whether the fitted model flags the transaction at index
idx of the working set ts.  Every theorem below holds for every such
predicate. -/

/-- The insight built for one flagged transaction (lines 114-140): the
reason is high amount when abs(price) exceeds twice the absolute value of
the mean of the signed prices of the working set, else an unusual pattern;
the confidence is always 0.85. -/
def anomalyInsightFor (ts : List Transaction) (t : Transaction) : Insight :=
  if |t.price| > |qMean (ts.map (·.price))| * 2 then
    { title := "Unusual Transaction Alert"
    , insight_type := "anomaly_high_amount"
    , confidence_score := 17 / 20 }
  else
    { title := "Unusual Transaction Alert"
    , insight_type := "anomaly_pattern"
    , confidence_score := 17 / 20 }

/-- _detect_anomalies: empty below 10 transactions, one insight per flagged
index in order, truncated to the first 3. -/
def detectAnomalies (pred : List Transaction → ℕ → Bool)
    (ts : List Transaction) : List Insight :=
  if ts.length < 10 then []
  else
    (((List.range ts.length).filter (fun idx => pred ts idx)).filterMap
      (fun idx => (ts.get? idx).map (fun t => anomalyInsightFor ts t))).take 3

/-- The comparison baseline as the specification words it: the mean of the
absolute amounts of the working set.  Modelled from the spec for comparison
with the signed mean the source uses. -/
def specMeanAbsAmount (ts : List Transaction) : ℚ :=
  qMean (ts.map (fun t => |t.price|))

/-! ## Goal Forecast Projector
(GoalForecastingEngine.forecast_goal_completion, backend/ai_insights.py
lines 488-569) -/

/-- The Goal fields the forecast reads. -/
structure Goal where
  target_amount : ℚ
  current_amount : ℚ
  target_date : Option ℤ
deriving DecidableEq

/-- The four result shapes of forecast_goal_completion.
goalNotFound carries the dict containing only an error message;
noTransactions is the record with on_track false, the message
"Not enough transaction data to make a forecast" and confidence 0.0;
projection carries on_track, required_monthly_savings, estimated_capacity
and confidence (its message is a formatted string, not modelled);
noTargetDate is the record with on_track false, the message
"Goal has no target date set" and confidence 0.0. -/
inductive Forecast
  | goalNotFound
  | noTransactions
  | projection (on_track : Bool) (required capacity confidence : ℚ)
  | noTargetDate
deriving DecidableEq

/-- The distinct months of the transaction history, ascending, as the
pandas groupby on the month period produces them.  A transaction is a pair
(price, month index). -/
def monthKeys (txns : List (ℚ × ℤ)) : List ℤ :=
  insortBy (fun a b => decide (a ≤ b)) ((txns.map (·.2)).dedup)

/-- monthly_spending: the summed price per distinct month, ascending. -/
def monthlyTotals (txns : List (ℚ × ℤ)) : List ℚ :=
  (monthKeys txns).map
    (fun m => ((txns.filter (fun p => decide (p.2 = m))).map (·.1)).sum)

/-- forecast_goal_completion.  today is datetime.now().date() as a day
number; sigma is the sample standard deviation of the monthly totals
(pandas .std(), ddof = 1), passed as a parameter because a square root is
irrational over ℚ — the theorems about the projection branch constrain it
by sigma ^ 2 = sampleVariance (monthlyTotals txns).  months_remaining is
max(1, days_remaining / 30); required_monthly_savings is the amount still
needed divided by it; estimated capacity is 20 percent of the mean monthly
total; confidence is min(0.95, max(0.3, 1 - sigma / mean)). -/
def forecast_goal_completion (goal : Option Goal) (txns : List (ℚ × ℤ))
    (today : ℤ) (sigma : ℚ) : Forecast :=
  match goal with
  | none => Forecast.goalNotFound
  | some g =>
    if txns = [] then Forecast.noTransactions
    else
      match g.target_date with
      | some td =>
        if 2 ≤ (monthlyTotals txns).length then
          Forecast.projection
            (decide (qMean (monthlyTotals txns) * (1 / 5) ≥
              (g.target_amount - g.current_amount) /
                max 1 (((td - today : ℤ) : ℚ) / 30)))
            ((g.target_amount - g.current_amount) /
              max 1 (((td - today : ℤ) : ℚ) / 30))
            (qMean (monthlyTotals txns) * (1 / 5))
            (min (19 / 20) (max (3 / 10) (1 - sigma / qMean (monthlyTotals txns))))
        else Forecast.noTargetDate
      | none => Forecast.noTargetDate

/-! ## Insight engine state and idempotence
(FinancialInsightsEngine, backend/ai_insights.py lines 25-70)

The engine object holds an IsolationForest constructed with contamination
0.1, random_state 42 and n_estimators 100, and a StandardScaler.  Each
generate_user_insights call refits both on the current working set, so the
only state a run mutates is the fitted-model content; the seed and
hyperparameters are never changed.  The fitted model and scaler are
summarised by the fittedData field; the anomaly model is a function of the
seed and hyperparameters, which makes the refit deterministic. -/

structure EngineState where
  randomState : ℕ
  contamination : ℚ
  nEstimators : ℕ
  fittedData : Option (List Transaction)
deriving DecidableEq

/-- FinancialInsightsEngine.__init__: IsolationForest(contamination=0.1,
random_state=42, n_estimators=100), nothing fitted yet. -/
def initEngine : EngineState :=
  { randomState := 42, contamination := 1 / 10, nEstimators := 100, fittedData := none }

/-- _detect_anomalies as a state transformer: the predictions come from the
model seeded by the engine state, and fitting records the working set. -/
def detectAnomaliesSt (model : ℕ → ℚ → ℕ → List Transaction → ℕ → Bool)
    (st : EngineState) (ts : List Transaction) : List Insight × EngineState :=
  (detectAnomalies (model st.randomState st.contamination st.nEstimators) ts,
   ⟨st.randomState, st.contamination, st.nEstimators, some ts⟩)

/-- The subscription and gray-charge record of _detect_subscriptions. -/
structure SubRecord where
  merchant : String
  amount : ℚ
  frequency : SubFreq
  occurrences : ℕ
  total_spent : ℚ
deriving DecidableEq

/-- recurring_patterns (lines 153-164): expense-side transactions grouped
by (merchant_name.lower().strip(), price), collecting dates in order. -/
def subsGroups (ts : List Transaction) : List ((String × ℚ) × List ℤ) :=
  ts.foldl
    (fun gs t =>
      if 0 < t.price then addToGroups gs (pyLowerStrip t.merchant_name, t.price) t.date
      else gs) []

/-- Lines 169-207: classify every group of at least 2 dates; a recognized
frequency yields a gray charge or a subscription by the amount < 20 and
count >= 3 rule. -/
def subsClassify (ts : List Transaction) : List SubRecord × List SubRecord :=
  (subsGroups ts).foldl
    (fun (acc : List SubRecord × List SubRecord) (g : (String × ℚ) × List ℤ) =>
      if 2 ≤ g.2.length then
        match classifyFrequency g.2 with
        | some f =>
          let r : SubRecord :=
            { merchant := g.1.1, amount := g.1.2, frequency := f
            , occurrences := g.2.length, total_spent := g.1.2 * (g.2.length : ℚ) }
          if g.1.2 < 20 ∧ 3 ≤ g.2.length then (acc.1, acc.2 ++ [r])
          else (acc.1 ++ [r], acc.2)
        | none => acc
      else acc)
    ([], [])

/-- _detect_subscriptions at the insight level: nothing below 30
transactions; one subscription-summary insight (confidence 0.9) when any
subscription exists and one gray-charges insight (confidence 0.85) when any
gray charge exists (messages not modelled). -/
def subscriptionInsights (ts : List Transaction) : List Insight :=
  if ts.length < 30 then []
  else
    let sg := subsClassify ts
    (if sg.1 ≠ [] then
      [{ title := "Active Subscriptions Detected"
       , insight_type := "subscription_summary", confidence_score := 9 / 10 }]
     else []) ++
    (if sg.2 ≠ [] then
      [{ title := "Potential Forgotten Subscriptions"
       , insight_type := "gray_charges", confidence_score := 17 / 20 }]
     else [])

/-- generate_user_insights: empty on an empty history, otherwise the
concatenation of the four detector outputs in source order.  The spending
and category analysers are pure functions of the working set and are
abstracted as the parameters spendDet and catDet; the anomaly step threads
the engine state. -/
def generateUserInsights (model : ℕ → ℚ → ℕ → List Transaction → ℕ → Bool)
    (spendDet catDet : List Transaction → List Insight)
    (st : EngineState) (ts : List Transaction) : List Insight × EngineState :=
  if ts = [] then ([], st)
  else
    let anom := detectAnomaliesSt model st ts
    (spendDet ts ++ anom.1 ++ subscriptionInsights ts ++ catDet ts, anom.2)

/-! ## Concrete scenarios used by the witnesses and counterexamples -/

/-- Two salary deposits from Acme Inc, 30 days apart. -/
def exT1 : Transaction := ⟨-2000, "Acme Inc", 0, 0⟩

def exT2 : Transaction := ⟨-2000, "Acme Inc", 30, 0⟩

/-- Two salary deposits from the same employer reported as Acme. -/
def exT3 : Transaction := ⟨-2000, "Acme", 0, 0⟩

def exT4 : Transaction := ⟨-2000, "Acme", 30, 0⟩

def exTs : List Transaction := [exT1, exT2, exT3, exT4]

/-- A salary group for the primary detector: three equal deposits, 30 days
apart. -/
def exG : List Transaction :=
  [⟨-2000, "Employer", 0, 0⟩, ⟨-2000, "Employer", 30, 0⟩, ⟨-2000, "Employer", 60, 0⟩]

/-- A 10-transaction working set: one 50 expense, five 100 expenses, four
100 incomes.  The signed mean is 15, the mean absolute amount 95. -/
def exA : List Transaction :=
  [⟨50, "M0", 0, 0⟩, ⟨100, "M1", 1, 0⟩, ⟨100, "M2", 2, 0⟩, ⟨100, "M3", 3, 0⟩,
   ⟨100, "M4", 4, 0⟩, ⟨100, "M5", 5, 0⟩, ⟨-100, "M6", 6, 0⟩, ⟨-100, "M7", 7, 0⟩,
   ⟨-100, "M8", 8, 0⟩, ⟨-100, "M9", 9, 0⟩]

/-- A model that flags exactly the first transaction of the working set. -/
def exPred : List Transaction → ℕ → Bool := fun _ idx => idx = 0

/-- A goal of 1000 from 0 with a target date 300 days out. -/
def wGoal : Goal := ⟨1000, 0, some 300⟩

/-! ## C7: idempotence of the merchant normalizer -/

/-- C7, code_bug record: normalize_merchant_name is not idempotent.  On the
input "acme -inc" the suffix pass finds no match (the regex needs
whitespace directly before the token), then the punctuation pass deletes
the hyphen and manufactures the suffix " inc", so a second application
strips it: normalize("acme -inc") = "acme inc" but
normalize("acme inc") = "acme".  The spec requires
normalize(normalize(x)) = normalize(x) for every x. -/
theorem normalize_double_collapse :
    normalize_merchant_name "acme -inc" = "acme inc"
    ∧ normalize_merchant_name "acme inc" = "acme"
    ∧ normalize_merchant_name (normalize_merchant_name "acme -inc") ≠
        normalize_merchant_name "acme -inc" := by
  refine ⟨by decide, by decide, ?_⟩
  decide

/-! ## C1: grouping of the invoked income detector -/

/-- C1, counterexample: the raw names "Acme Inc" and "Acme" differ, are
similar under the Normalizer predicate (their normalized forms are both
"acme", ratio 1), and the deposits carry equal amounts, yet the detector
actually invoked by the endpoints puts them into two different groups and
returns two separate income streams, because it groups by the exact key
(lowercased merchant, rounded absolute amount, account id) and never
consults the similarity predicate. -/
theorem income_similar_names_not_merged :
    are_similar_sources "Acme Inc" "Acme" 2000 2000 (1 / 10) = true
    ∧ exT1.merchant_name ≠ exT3.merchant_name
    ∧ (incomeGroups exTs).map Prod.snd = [[exT1, exT2], [exT3, exT4]]
    ∧ (analyzeIncomePatterns [] exTs).map IncomeStream.name = ["Acme Inc", "Acme"] := by
  refine ⟨by decide, by decide, by decide, by decide⟩

/-- The keys of the groups after an insertion: unchanged when the key is
already present, appended at the end otherwise. -/
theorem addToGroups_fst {κ β : Type} [DecidableEq κ] (gs : List (κ × List β))
    (k : κ) (x : β) :
    (addToGroups gs k x).map Prod.fst =
      if k ∈ gs.map Prod.fst then gs.map Prod.fst
      else gs.map Prod.fst ++ [k] := by
  induction gs with
  | nil => simp [addToGroups]
  | cons p rest ih =>
    obtain ⟨k2, l⟩ := p
    by_cases h : k2 = k
    · subst h; simp [addToGroups]
    · simp only [addToGroups, if_neg h, List.map_cons, ih]
      have hne : ¬k = k2 := fun e => h e.symm
      by_cases hmem : k ∈ rest.map Prod.fst
      · simp [hmem, hne]
      · simp [hmem, hne]

/-- Every member of every bucket has the key of its bucket, preserved by an
insertion at the key of the inserted element. -/
theorem addToGroups_key_inv {κ β : Type} [DecidableEq κ] (f : β → κ)
    (gs : List (κ × List β)) (x : β)
    (h : ∀ p ∈ gs, ∀ y ∈ p.2, f y = p.1) :
    ∀ p ∈ addToGroups gs (f x) x, ∀ y ∈ p.2, f y = p.1 := by
  induction gs with
  | nil =>
    intro p hp y hy
    simp only [addToGroups, List.mem_singleton] at hp
    subst hp
    simp only [List.mem_singleton] at hy
    subst hy
    rfl
  | cons q rest ih =>
    obtain ⟨k2, l⟩ := q
    intro p hp y hy
    by_cases hk : k2 = f x
    · simp only [addToGroups, if_pos hk, List.mem_cons] at hp
      rcases hp with hp | hp
      · subst hp
        simp only [List.mem_append, List.mem_singleton] at hy
        rcases hy with hy | hy
        · exact h (k2, l) (List.mem_cons_self _ _) y hy
        · subst hy; exact hk.symm
      · exact h p (List.mem_cons_of_mem _ hp) y hy
    · simp only [addToGroups, if_neg hk, List.mem_cons] at hp
      rcases hp with hp | hp
      · subst hp; exact h (k2, l) (List.mem_cons_self _ _) y hy
      · exact ih (fun q hq => h q (List.mem_cons_of_mem _ hq)) p hp y hy

/-- An insertion never duplicates a key. -/
theorem addToGroups_nodup {κ β : Type} [DecidableEq κ] (gs : List (κ × List β))
    (k : κ) (x : β) (h : (gs.map Prod.fst).Nodup) :
    ((addToGroups gs k x).map Prod.fst).Nodup := by
  rw [addToGroups_fst]
  split
  · exact h
  · next hnot =>
    refine List.Nodup.append h (List.nodup_singleton k) ?_
    intro a ha hb
    simp only [List.mem_singleton] at hb
    subst hb
    exact hnot ha

/-- The two structural invariants of the income grouping: bucket members
carry the bucket key, and keys are pairwise distinct. -/
theorem incomeGroups_wf (ts : List Transaction) :
    (∀ p ∈ incomeGroups ts, ∀ y ∈ p.2, incomeKey y = p.1)
    ∧ ((incomeGroups ts).map Prod.fst).Nodup := by
  suffices h : ∀ (l : List Transaction) (gs : List ((String × ℤ × ℕ) × List Transaction)),
      ((∀ p ∈ gs, ∀ y ∈ p.2, incomeKey y = p.1) ∧ (gs.map Prod.fst).Nodup) →
      ((∀ p ∈ l.foldl (fun gs t => if |t.price| < 50 then gs
          else addToGroups gs (incomeKey t) t) gs, ∀ y ∈ p.2, incomeKey y = p.1)
        ∧ ((l.foldl (fun gs t => if |t.price| < 50 then gs
          else addToGroups gs (incomeKey t) t) gs).map Prod.fst).Nodup) by
    exact h ts [] ⟨by simp, by simp⟩
  intro l
  induction l with
  | nil => intro gs hgs; exact hgs
  | cons t rest ih =>
    intro gs hgs
    simp only [List.foldl_cons]
    apply ih
    by_cases hp : |t.price| < 50
    · simpa [hp] using hgs
    · simp only [if_neg hp]
      exact ⟨addToGroups_key_inv incomeKey gs t hgs.1,
        addToGroups_nodup gs (incomeKey t) t hgs.2⟩

/-- C1, amended: in the income detector that the endpoints actually invoke,
two deposits (of absolute amount at least 50) lie in the same group, and
hence in the same emitted income stream, exactly when their exact keys
(lowercased stripped merchant name, rounded absolute amount, account id)
coincide; the fuzzy similarity predicate of the shadowed first detector
plays no role. -/
theorem income_grouping_exact_key (ts : List Transaction)
    (g g' : (String × ℤ × ℕ) × List Transaction) (t1 t2 : Transaction)
    (hg : g ∈ incomeGroups ts) (hg' : g' ∈ incomeGroups ts)
    (h1 : t1 ∈ g.2) (h2 : t2 ∈ g'.2) :
    g = g' ↔ incomeKey t1 = incomeKey t2 := by
  obtain ⟨hkey, hnd⟩ := incomeGroups_wf ts
  constructor
  · intro h
    subst h
    rw [hkey g hg t1 h1, hkey g hg t2 h2]
  · intro h
    have e1 : incomeKey t1 = g.1 := hkey g hg t1 h1
    have e2 : incomeKey t2 = g'.1 := hkey g' hg' t2 h2
    exact List.inj_on_of_nodup_map hnd hg hg' (by rw [← e1, ← e2, h])

/-- Witness for the amended C1 theorem at the concrete Acme scenario: the
two Acme Inc salary deposits share their group, hence their keys agree. -/
theorem income_grouping_exact_key_witness : incomeKey exT1 = incomeKey exT2 :=
  (income_grouping_exact_key exTs (("acme inc", 2000, 0), [exT1, exT2])
    (("acme inc", 2000, 0), [exT1, exT2]) exT1 exT2
    (by decide) (by decide) (by decide) (by decide)).mp rfl

/-! ## C2: the confidence formula of the primary income detector -/

/-- Bankers rounding never exceeds an integer upper bound of its input. -/
theorem roundHalfEven_le {x : ℚ} {m : ℤ} (h : x ≤ (m : ℚ)) :
    roundHalfEven x ≤ m := by
  have hfl : ⌊x⌋ ≤ m := by
    have := Int.floor_le_floor h
    simpa using this
  have hx : (⌊x⌋ : ℚ) ≤ x := Int.floor_le x
  unfold roundHalfEven
  split_ifs with h1 h2 h3
  · exact hfl
  · by_contra hc
    push_neg at hc
    have hm : m ≤ ⌊x⌋ := by omega
    have : x ≤ (⌊x⌋ : ℚ) := le_trans h (by exact_mod_cast hm)
    linarith
  · exact hfl
  · by_contra hc
    push_neg at hc
    have hm : m ≤ ⌊x⌋ := by omega
    have : x ≤ (⌊x⌋ : ℚ) := le_trans h (by exact_mod_cast hm)
    linarith

/-- Bankers rounding never goes below an integer lower bound of its input. -/
theorem le_roundHalfEven {m : ℤ} {x : ℚ} (h : (m : ℚ) ≤ x) :
    m ≤ roundHalfEven x := by
  have hfl : m ≤ ⌊x⌋ := Int.le_floor.mpr h
  unfold roundHalfEven
  split_ifs <;> omega

/-- The sample variance of a list with at least 2 entries is nonnegative. -/
theorem sampleVariance_nonneg {l : List ℚ} (h : 1 < l.length) :
    0 ≤ sampleVariance l := by
  unfold sampleVariance
  apply div_nonneg
  · apply List.sum_nonneg
    intro x hx
    obtain ⟨a, _, rfl⟩ := List.mem_map.mp hx
    positivity
  · have : (1 : ℚ) < l.length := by exact_mod_cast h
    linarith

/-- Helper for the amended C2 theorem: once the emission filter has passed
(confidence above 0.3) and the mean interval is nonzero, the rounded
confidence lies in [0, 0.8]. -/
theorem round2q_primary_bounds {I : List ℚ} {n : ℕ}
    (hc : 3 / 10 < primaryConfidence I n) (hm : qMean I ≠ 0) :
    0 ≤ round2q (primaryConfidence I n) ∧ round2q (primaryConfidence I n) ≤ 4 / 5 := by
  have hsc0 : 0 ≤ sampleConfidence n := by
    unfold sampleConfidence
    exact le_min (by positivity) (by norm_num)
  have hsc1 : sampleConfidence n ≤ 1 := min_le_right _ _
  have hic : intervalConsistency I ≤ 1 := by
    unfold intervalConsistency
    split_ifs with hlen
    · have hv : 0 ≤ sampleVariance I := sampleVariance_nonneg hlen
      have hm2 : 0 < (qMean I) ^ 2 := by positivity
      have : 0 ≤ sampleVariance I / (qMean I) ^ 2 := div_nonneg hv (le_of_lt hm2)
      linarith
    · exact le_refl 1
  have hconf : primaryConfidence I n ≤ 4 / 5 := by
    have hprod : intervalConsistency I * sampleConfidence n ≤ 1 := by
      rcases le_or_lt (intervalConsistency I) 0 with hle | hpos
      · nlinarith
      · nlinarith
    unfold primaryConfidence
    nlinarith
  have h80 : (100 : ℚ) * primaryConfidence I n ≤ ((80 : ℤ) : ℚ) := by
    push_cast
    linarith
  have h30 : (((30 : ℤ)) : ℚ) ≤ 100 * primaryConfidence I n := by
    push_cast
    linarith
  have hub : roundHalfEven (100 * primaryConfidence I n) ≤ 80 := roundHalfEven_le h80
  have hlb : (30 : ℤ) ≤ roundHalfEven (100 * primaryConfidence I n) := le_roundHalfEven h30
  have hubq : ((roundHalfEven (100 * primaryConfidence I n) : ℤ) : ℚ) ≤ 80 := by
    exact_mod_cast hub
  have hlbq : (30 : ℚ) ≤ ((roundHalfEven (100 * primaryConfidence I n) : ℤ) : ℚ) := by
    exact_mod_cast hlb
  unfold round2q
  constructor <;> linarith

/-- C2, amended: in the primary detector the stored confidence of an
emitted stream is interval_consistency * sample_confidence * 0.8 rounded to
2 decimals — a multiplicative 0.8 factor, with no clamp on the interval
consistency — and, because emission requires confidence above 0.3, every
emitted confidence lies in [0, 0.8]. -/
theorem primary_confidence_amended (name : String) (g : List Transaction)
    (s : PrimaryStream) (h : primaryProcessGroup name g = some s)
    (hm : qMean (primaryIntervals g) ≠ 0) :
    s.confidence = round2q (primaryConfidence (primaryIntervals g) g.length)
    ∧ 0 ≤ s.confidence ∧ s.confidence ≤ 4 / 5 := by
  unfold primaryProcessGroup at h
  by_cases c1 : g.length < 2
  · rw [if_pos c1] at h; exact Option.noConfusion h
  rw [if_neg c1] at h
  by_cases c2 : (qMean (g.map (fun t => |t.price|)) * (1 / 5)) ^ 2 <
      (if 1 < g.length then sampleVariance (g.map (fun t => |t.price|)) else 0)
  · rw [if_pos c2] at h; exact Option.noConfusion h
  rw [if_neg c2] at h
  by_cases c3 : (g.map (·.date)).length ≤ 1
  · rw [if_pos c3] at h; exact Option.noConfusion h
  rw [if_neg c3] at h
  by_cases c4 : 3 / 10 < primaryConfidence (primaryIntervals g) g.length
  · rw [if_pos c4] at h
    have hs := Option.some.inj h
    subst hs
    exact ⟨rfl, round2q_primary_bounds c4 hm⟩
  · rw [if_neg c4] at h; exact Option.noConfusion h

/-- Witness for the amended C2 theorem: the concrete salary group of three
2000 deposits 30 days apart is emitted with stored confidence 0.48, which
the theorem certifies to equal the rounded formula value and to lie in
[0, 0.8]. -/
theorem primary_confidence_amended_witness :
    (⟨"Employer", 2000, 12 / 25, 61, "Monthly"⟩ : PrimaryStream).confidence =
      round2q (primaryConfidence (primaryIntervals exG) exG.length)
    ∧ 0 ≤ (⟨"Employer", 2000, 12 / 25, 61, "Monthly"⟩ : PrimaryStream).confidence
    ∧ (⟨"Employer", 2000, 12 / 25, 61, "Monthly"⟩ : PrimaryStream).confidence ≤ 4 / 5 :=
  primary_confidence_amended "Employer" exG
    ⟨"Employer", 2000, 12 / 25, 61, "Monthly"⟩ (by decide) (by decide)

/-- C2, counterexample: on the salary group exG (intervals [30, 30], three
occurrences) the source emits confidence 0.48 = 1 * (3/5) * 0.8, while the
formula of the claim — clamped consistency times sample confidence, capped
at 0.8 — gives min(1 * 3/5, 0.8) = 0.6.  The two disagree, so the stored
confidence is not the claimed value. -/
theorem primary_confidence_counterexample :
    (primaryProcessGroup "Employer" exG).map PrimaryStream.confidence = some (12 / 25)
    ∧ specIncomeConfidence (primaryIntervals exG) exG.length = 3 / 5
    ∧ (12 / 25 : ℚ) ≠ 3 / 5 := by
  refine ⟨by decide, by decide, by decide⟩

/-! ## C3: the gray-charge rule of the Recurring Charge Detector -/

/-- C3: for every series the detector classifies with a recognized
frequency, the series is a gray charge exactly when its amount is below 20
and it has at least 3 occurrences; otherwise it is a subscription. -/
theorem gray_charge_rule (amount : ℚ) (dates : List ℤ) (f : SubFreq)
    (k : SeriesKind) (h : classifySeries amount dates = some (f, k)) :
    k = SeriesKind.grayCharge ↔ (amount < 20 ∧ 3 ≤ dates.length) := by
  unfold classifySeries at h
  cases hc : classifyFrequency dates with
  | none => rw [hc] at h; exact Option.noConfusion h
  | some f2 =>
    rw [hc] at h
    dsimp only at h
    have hk := congrArg Prod.snd (Option.some.inj h)
    dsimp only at hk
    rw [← hk]
    by_cases hcond : amount < 20 ∧ 3 ≤ dates.length
    · simp [hcond]
    · simp [hcond]

/-- Witness for C3 at the concrete series of the spec: a monthly-regular
series of 3 occurrences classifies as a gray charge at amount 15 (the
theorem applied there yields the defining condition) and as a subscription
at amount 25. -/
theorem gray_charge_rule_witness :
    classifySeries 15 [0, 30, 60] = some (SubFreq.monthly, SeriesKind.grayCharge)
    ∧ ((15 : ℚ) < 20 ∧ 3 ≤ ([0, 30, 60] : List ℤ).length)
    ∧ classifySeries 25 [0, 30, 60] = some (SubFreq.monthly, SeriesKind.subscription) :=
  ⟨by decide,
   (gray_charge_rule 15 [0, 30, 60] SubFreq.monthly SeriesKind.grayCharge
     (by decide)).mp rfl,
   by decide⟩

/-! ## C4: the expense-side Interval Classifier thresholds -/

/-- insertS grows the length by one. -/
theorem length_insertS {α : Type} (le : α → α → Bool) (x : α) (l : List α) :
    (insertS le x l).length = l.length + 1 := by
  induction l with
  | nil => rfl
  | cons y ys ih =>
    unfold insertS
    split
    · rfl
    · simp [ih]

/-- The stable sort preserves length. -/
theorem length_insortBy {α : Type} (le : α → α → Bool) (l : List α) :
    (insortBy le l).length = l.length := by
  induction l with
  | nil => rfl
  | cons y ys ih => simp [insortBy, length_insertS, ih]

/-- A list of n dates has n - 1 consecutive gaps. -/
theorem length_gaps (l : List ℤ) : (gaps l).length = l.length - 1 := by
  induction l with
  | nil => rfl
  | cons a rest ih =>
    cases rest with
    | nil => rfl
    | cons b rest2 => simpa [gaps] using ih

/-- A series of at least 2 dates has a nonempty gap list. -/
theorem dayGapsQ_ne_nil {dates : List ℤ} (h : 2 ≤ dates.length) :
    dayGapsQ dates ≠ [] := by
  intro he
  have hlen : (dayGapsQ dates).length = 0 := by rw [he]; rfl
  unfold dayGapsQ at hlen
  rw [List.length_map, length_gaps, length_insortBy] at hlen
  omega

/-- C4, amended: the expense-side classifier computes the mean and the
population standard deviation (np.std, ddof = 0) of the consecutive day
gaps — not the sample standard deviation — and labels a series of at least
2 dates monthly iff mean in [25, 35] with population variance below 25,
weekly iff mean in [6, 8] with population variance below 4, annual iff mean
in [350, 380] with population variance below 225, dropping it (none)
otherwise; in particular a series of exactly 2 occurrences 30 days apart is
labeled monthly. -/
theorem interval_classifier_population_std :
    (∀ dates : List ℤ, 2 ≤ dates.length →
      ((classifyFrequency dates = some SubFreq.monthly ↔
          25 ≤ qMean (dayGapsQ dates) ∧ qMean (dayGapsQ dates) ≤ 35
          ∧ popVariance (dayGapsQ dates) < 25)
        ∧ (classifyFrequency dates = some SubFreq.weekly ↔
          6 ≤ qMean (dayGapsQ dates) ∧ qMean (dayGapsQ dates) ≤ 8
          ∧ popVariance (dayGapsQ dates) < 4)
        ∧ (classifyFrequency dates = some SubFreq.annual ↔
          350 ≤ qMean (dayGapsQ dates) ∧ qMean (dayGapsQ dates) ≤ 380
          ∧ popVariance (dayGapsQ dates) < 225)
        ∧ (classifyFrequency dates = none ↔
          ¬(25 ≤ qMean (dayGapsQ dates) ∧ qMean (dayGapsQ dates) ≤ 35
            ∧ popVariance (dayGapsQ dates) < 25)
          ∧ ¬(6 ≤ qMean (dayGapsQ dates) ∧ qMean (dayGapsQ dates) ≤ 8
            ∧ popVariance (dayGapsQ dates) < 4)
          ∧ ¬(350 ≤ qMean (dayGapsQ dates) ∧ qMean (dayGapsQ dates) ≤ 380
            ∧ popVariance (dayGapsQ dates) < 225))))
    ∧ (∀ d : ℤ, classifyFrequency [d, d + 30] = some SubFreq.monthly) := by
  constructor
  · intro dates h2
    have hne : dayGapsQ dates ≠ [] := dayGapsQ_ne_nil h2
    unfold classifyFrequency
    rw [if_neg hne]
    by_cases hM : 25 ≤ qMean (dayGapsQ dates) ∧ qMean (dayGapsQ dates) ≤ 35
        ∧ popVariance (dayGapsQ dates) < 25
    · rw [if_pos hM]
      refine ⟨by simp [hM], ?_, ?_, by simp [hM]⟩
      · simp only [Option.some.injEq]
        constructor
        · intro habs; exact absurd habs (by decide)
        · rintro ⟨hw, hw2, -⟩; linarith [hM.1]
      · simp only [Option.some.injEq]
        constructor
        · intro habs; exact absurd habs (by decide)
        · rintro ⟨ha, -, -⟩; linarith [hM.2.1]
    · rw [if_neg hM]
      by_cases hW : 6 ≤ qMean (dayGapsQ dates) ∧ qMean (dayGapsQ dates) ≤ 8
          ∧ popVariance (dayGapsQ dates) < 4
      · rw [if_pos hW]
        refine ⟨by simp [hM], by simp [hW], ?_, by simp [hM, hW]⟩
        simp only [Option.some.injEq]
        constructor
        · intro habs; exact absurd habs (by decide)
        · rintro ⟨ha, -, -⟩; linarith [hW.2.1]
      · rw [if_neg hW]
        by_cases hA : 350 ≤ qMean (dayGapsQ dates) ∧ qMean (dayGapsQ dates) ≤ 380
            ∧ popVariance (dayGapsQ dates) < 225
        · rw [if_pos hA]
          exact ⟨by simp [hM], by simp [hW], by simp [hA], by simp [hM, hW, hA]⟩
        · rw [if_neg hA]
          exact ⟨by simp [hM], by simp [hW], by simp [hA], by simp [hM, hW, hA]⟩
  · intro d
    have hsort : insortBy (fun a b => decide (a ≤ b)) [d, d + 30] = [d, d + 30] := by
      have hle : d ≤ d + 30 := by omega
      simp [insortBy, insertS, hle]
    have hgaps : dayGapsQ [d, d + 30] = [30] := by
      unfold dayGapsQ
      rw [hsort]
      have : d + 30 - d = 30 := by omega
      simp [gaps, this]
    unfold classifyFrequency
    rw [hgaps]
    norm_num [qMean, popVariance]

/-- C4, counterexample to the claim as stated: the series 0, 27, 62 has
gaps [27, 35], mean 31 and population standard deviation 4 (variance 16),
so the source labels it monthly; the sample variance is 32 (sample standard
deviation above 5), so the claimed classifier with the sample standard
deviation drops the same series as irregular. -/
theorem interval_classifier_sample_std_counterexample :
    classifyFrequency [0, 27, 62] = some SubFreq.monthly
    ∧ specClassifyFrequency [0, 27, 62] = none := by
  refine ⟨by decide, by decide⟩

/-- Witness for the amended C4 theorem: at the series [0, 30, 60] the
characterization yields the monthly label, and the 2-occurrence instance
holds at d = 5. -/
theorem interval_classifier_population_std_witness :
    classifyFrequency [0, 30, 60] = some SubFreq.monthly
    ∧ classifyFrequency [5, 35] = some SubFreq.monthly := by
  constructor
  · exact (interval_classifier_population_std.1 [0, 30, 60] (by decide)).1.mpr (by decide)
  · have h := interval_classifier_population_std.2 5
    norm_num at h
    exact h

/-! ## C5 and C6: the Anomaly Scorer -/

/-- C5, amended: every insight the anomaly detector surfaces belongs to a
transaction of the working set, and its reason is the high-amount one
exactly when the absolute amount exceeds twice the absolute value of the
mean of the signed amounts of the working set (not twice the mean of the
absolute amounts). -/
theorem anomaly_reason_signed_mean (pred : List Transaction → ℕ → Bool)
    (ts : List Transaction) (ins : Insight) (h : ins ∈ detectAnomalies pred ts) :
    ∃ t ∈ ts, ins = anomalyInsightFor ts t
      ∧ (ins.insight_type = "anomaly_high_amount" ↔
          |t.price| > |qMean (ts.map (·.price))| * 2) := by
  unfold detectAnomalies at h
  split_ifs at h
  · exact absurd h (List.not_mem_nil ins)
  · have h2 := List.mem_of_mem_take h
    obtain ⟨idx, hidx, heq⟩ := List.mem_filterMap.mp h2
    obtain ⟨t, hget, hins⟩ := Option.map_eq_some'.mp heq
    refine ⟨t, List.get?_mem hget, hins.symm, ?_⟩
    rw [← hins]
    unfold anomalyInsightFor
    split_ifs with hc
    · exact ⟨fun _ => hc, fun _ => rfl⟩
    · exact ⟨fun habs => absurd habs (by decide), fun hcc => absurd hcc hc⟩

/-- Witness for the amended C5 theorem: the flagged 50 expense of the
concrete working set exA satisfies the characterization. -/
theorem anomaly_reason_signed_mean_witness :
    ∃ t ∈ exA, anomalyInsightFor exA ⟨50, "M0", 0, 0⟩ = anomalyInsightFor exA t
      ∧ ((anomalyInsightFor exA ⟨50, "M0", 0, 0⟩).insight_type = "anomaly_high_amount" ↔
          |t.price| > |qMean (exA.map (·.price))| * 2) :=
  anomaly_reason_signed_mean exPred exA (anomalyInsightFor exA ⟨50, "M0", 0, 0⟩)
    (by decide)

/-- C5, counterexample to the claim as stated: in the working set exA the
signed mean is 15, so the flagged 50 expense is reported with the
high-amount reason; but the mean absolute amount is 95, and 50 does not
exceed 2 * 95, so under the claimed rule the same transaction would be an
unusual_pattern. -/
theorem anomaly_reason_counterexample :
    (detectAnomalies exPred exA).map Insight.insight_type = ["anomaly_high_amount"]
    ∧ ¬(|(⟨50, "M0", 0, 0⟩ : Transaction).price| > specMeanAbsAmount exA * 2) := by
  refine ⟨by decide, by decide⟩

/-- C6: anomaly detection returns nothing below 10 transactions, never
more than 3 insights, and every surfaced insight has confidence 0.85. -/
theorem anomaly_limits (pred : List Transaction → ℕ → Bool) (ts : List Transaction) :
    (ts.length < 10 → detectAnomalies pred ts = [])
    ∧ (detectAnomalies pred ts).length ≤ 3
    ∧ ∀ ins ∈ detectAnomalies pred ts, ins.confidence_score = 17 / 20 := by
  refine ⟨?_, ?_, ?_⟩
  · intro h
    unfold detectAnomalies
    rw [if_pos h]
  · unfold detectAnomalies
    split_ifs
    · simp
    · exact List.length_take_le 3 _
  · intro ins h
    unfold detectAnomalies at h
    split_ifs at h
    · exact absurd h (List.not_mem_nil ins)
    · have h2 := List.mem_of_mem_take h
      obtain ⟨idx, hidx, heq⟩ := List.mem_filterMap.mp h2
      obtain ⟨t, hget, hins⟩ := Option.map_eq_some'.mp heq
      rw [← hins]
      unfold anomalyInsightFor
      split_ifs <;> rfl

/-- Witness for C6: a 1-transaction set yields no anomaly insight, and the
10-transaction set exA yields at most 3, by the theorem. -/
theorem anomaly_limits_witness :
    detectAnomalies exPred [⟨50, "S", 0, 0⟩] = []
    ∧ (detectAnomalies exPred exA).length ≤ 3 :=
  ⟨(anomaly_limits exPred [⟨50, "S", 0, 0⟩]).1 (by decide),
   (anomaly_limits exPred exA).2.1⟩

/-! ## C8 and C10: the Goal Forecast Projector -/

/-- C8: with a target date and at least 2 months of data, the forecast
returns required_monthly_savings = (target - current) / max(1,
days_remaining / 30), capacity = 20 percent of the mean monthly total,
on_track iff capacity is at least the requirement, and confidence =
min(0.95, max(0.3, 1 - stddev / mean)) where sigma is the sample standard
deviation of the monthly totals. -/
theorem goal_forecast_formulas (g : Goal) (td : ℤ) (txns : List (ℚ × ℤ))
    (today : ℤ) (sigma : ℚ)
    (htd : g.target_date = some td)
    (hlen : 2 ≤ (monthlyTotals txns).length)
    (_hs0 : 0 ≤ sigma) (_hs : sigma ^ 2 = sampleVariance (monthlyTotals txns))
    (hm : qMean (monthlyTotals txns) ≠ 0) :
    forecast_goal_completion (some g) txns today sigma =
      Forecast.projection
        (decide (qMean (monthlyTotals txns) * (1 / 5) ≥
          (g.target_amount - g.current_amount) / max 1 (((td - today : ℤ) : ℚ) / 30)))
        ((g.target_amount - g.current_amount) / max 1 (((td - today : ℤ) : ℚ) / 30))
        (qMean (monthlyTotals txns) * (1 / 5))
        (min (19 / 20) (max (3 / 10) (1 - sigma / qMean (monthlyTotals txns)))) := by
  have hne : txns ≠ [] := by
    intro h0
    subst h0
    have hz : (monthlyTotals ([] : List (ℚ × ℤ))).length = 0 := rfl
    omega
  unfold forecast_goal_completion
  dsimp only
  rw [if_neg hne, htd]
  dsimp only
  rw [if_pos hlen]

/-- Witness for C8 at a concrete goal and 2-month history: target 1000,
current 0, 300 days out, spend 100 in each of 2 months, zero volatility:
required 100, capacity 20, off track, confidence 0.95. -/
theorem goal_forecast_formulas_witness :
    forecast_goal_completion (some wGoal) [(100, 0), (100, 1)] 0 0 =
      Forecast.projection false 100 20 (19 / 20) := by
  have h := goal_forecast_formulas wGoal 300 [(100, 0), (100, 1)] 0 0 rfl
    (by decide) le_rfl (by decide) (by decide)
  rw [h]
  decide

/-- C10, amended: when the goal has a target date and the user has at least
one transaction but the history spans fewer than 2 distinct months, the
forecast falls through to the no-target-date record {on_track: false,
message: "Goal has no target date set", confidence: 0.0}; with no
transactions at all it instead returns the insufficient-data record (see
the counterexample). -/
theorem forecast_single_month_no_target_message (g : Goal) (td : ℤ)
    (txns : List (ℚ × ℤ)) (today : ℤ) (sigma : ℚ)
    (htd : g.target_date = some td) (hne : txns ≠ [])
    (hlt : (monthlyTotals txns).length < 2) :
    forecast_goal_completion (some g) txns today sigma = Forecast.noTargetDate := by
  unfold forecast_goal_completion
  dsimp only
  rw [if_neg hne, htd]
  dsimp only
  rw [if_neg (by omega : ¬ 2 ≤ (monthlyTotals txns).length)]

/-- Witness for the amended C10 theorem: one transaction in one month. -/
theorem forecast_single_month_no_target_message_witness :
    forecast_goal_completion (some wGoal) [(50, 0)] 0 0 = Forecast.noTargetDate :=
  forecast_single_month_no_target_message wGoal 300 [(50, 0)] 0 0 rfl
    (by decide) (by decide)

/-- C10, counterexample to the claim as stated: with a goal that has a
target date and an empty transaction history (which spans 0 < 2 distinct
months) the forecast returns the insufficient-data record, not the
no-target-date record the claim asserts. -/
theorem forecast_empty_history_counterexample :
    wGoal.target_date = some 300
    ∧ (monthlyTotals ([] : List (ℚ × ℤ))).length < 2
    ∧ forecast_goal_completion (some wGoal) [] 0 0 = Forecast.noTransactions
    ∧ Forecast.noTransactions ≠ Forecast.noTargetDate := by
  refine ⟨rfl, by decide, by decide, by decide⟩

/-! ## C9: determinism of the insight engine -/

/-- C9: running the engine twice on the identical, unchanged transaction
set produces identical insight output: the first run only mutates the
fitted-model content of the engine state, never the seed (random_state 42)
or the hyperparameters, and the anomaly model is refit from that unchanged
seed while the remaining detectors are pure functions of the working set,
for every anomaly model and every pure spending and category analyser. -/
theorem engine_two_runs_identical (model : ℕ → ℚ → ℕ → List Transaction → ℕ → Bool)
    (spendDet catDet : List Transaction → List Insight) (ts : List Transaction) :
    (generateUserInsights model spendDet catDet
        (generateUserInsights model spendDet catDet initEngine ts).2 ts).1 =
      (generateUserInsights model spendDet catDet initEngine ts).1 := by
  by_cases h : ts = []
  · subst h; rfl
  · simp [generateUserInsights, detectAnomaliesSt, initEngine, h]

end BudgetApp
